import Mathlib

/-!
Formal model of the serving core of the GOT house predictor (`src/app.py`).

Strings are modelled as lists of characters (`PyStr`), numeric cell values as
rationals.  The request pipeline of the `/predict` handler is modelled as:

* `CharacterInput` — the pydantic request record;
* `numericItems` / `get_dummies_col` / `encode` — the bool-to-int conversion
  followed by `pd.get_dummies(df, dummy_na=True)` on a single-row frame:
  numeric columns pass through in column order, every object (string) column
  is replaced by the indicator column `"<field>_<value>" = 1` plus the
  `dummy_na` column `"<field>_nan" = 0`, appended after the numeric columns
  in field-declaration order;
* `reindex` — `df_encoded.reindex(columns=feature_columns, fill_value=0)`:
  a no-op on an identical axis, otherwise a per-schema-name lookup with
  0 fill when the column axis is unique, and the pandas
  "cannot reindex on an axis with duplicate labels" error otherwise
  (empty target excepted);
* `predict` — the handler: 503 when a global is unset, the reindex step
  outside the try/except, and `model.predict` guarded by the
  "Prediction failed" handler;
* `load_artifacts` — the startup loader mutating the two globals.
-/

deriving instance DecidableEq for Except

/-- Python strings, modelled as lists of characters. -/
abbrev PyStr := List Char

/-- The pydantic request model `CharacterInput` of `app.py`. -/
structure CharacterInput where
  region : PyStr
  primary_role : PyStr
  alignment : PyStr
  status : PyStr
  species : PyStr
  honour_1to5 : Int
  ruthlessness_1to5 : Int
  intelligence_1to5 : Int
  combat_skill_1to5 : Int
  diplomacy_1to5 : Int
  leadership_1to5 : Int
  trait_strategic : Bool
  trait_impulsive : Bool
  trait_charismatic : Bool
  trait_vengeful : Bool
  trait_loyal : Bool
  trait_scheming : Bool
  feature_set_version : ℚ

/-- The boolean-to-int conversion loop of the handler: `1 if value else 0`. -/
def boolInt (b : Bool) : ℚ := if b then 1 else 0

/-- The non-object (numeric) columns of the single-row frame, in the order
`pd.DataFrame([data])` keeps them after `pd.get_dummies` drops the five
string columns: the six ratings, the six converted traits, then
`feature_set_version`. -/
def numericItems (c : CharacterInput) : List (PyStr × ℚ) :=
  [("honour_1to5".toList, (c.honour_1to5 : ℚ)),
   ("ruthlessness_1to5".toList, (c.ruthlessness_1to5 : ℚ)),
   ("intelligence_1to5".toList, (c.intelligence_1to5 : ℚ)),
   ("combat_skill_1to5".toList, (c.combat_skill_1to5 : ℚ)),
   ("diplomacy_1to5".toList, (c.diplomacy_1to5 : ℚ)),
   ("leadership_1to5".toList, (c.leadership_1to5 : ℚ)),
   ("trait_strategic".toList, boolInt c.trait_strategic),
   ("trait_impulsive".toList, boolInt c.trait_impulsive),
   ("trait_charismatic".toList, boolInt c.trait_charismatic),
   ("trait_vengeful".toList, boolInt c.trait_vengeful),
   ("trait_loyal".toList, boolInt c.trait_loyal),
   ("trait_scheming".toList, boolInt c.trait_scheming),
   ("feature_set_version".toList, c.feature_set_version)]

/-- One object column under `pd.get_dummies(·, dummy_na=True)` on a
single-row frame holding `value`: the indicator `"<field>_<value>" = 1`
followed by the always-present `"<field>_nan" = 0` missing bucket. -/
def get_dummies_col (field : PyStr) (value : PyStr) : List (PyStr × ℚ) :=
  [(field ++ '_' :: value, 1), (field ++ "_nan".toList, 0)]

/-- The five categorical (object-dtype) fields of the request frame. -/
inductive CatField where
  | region
  | primary_role
  | alignment
  | status
  | species
deriving DecidableEq

/-- The column name of a categorical field. -/
def CatField.fieldName : CatField → PyStr
  | .region => "region".toList
  | .primary_role => "primary_role".toList
  | .alignment => "alignment".toList
  | .status => "status".toList
  | .species => "species".toList

/-- Projection of a categorical field out of a request record. -/
def CatField.get : CatField → CharacterInput → PyStr
  | .region, c => c.region
  | .primary_role, c => c.primary_role
  | .alignment, c => c.alignment
  | .status, c => c.status
  | .species, c => c.species

/-- Replace one categorical field of a request record. -/
def CatField.set : CatField → CharacterInput → PyStr → CharacterInput
  | .region, c, v => { c with region := v }
  | .primary_role, c, v => { c with primary_role := v }
  | .alignment, c, v => { c with alignment := v }
  | .status, c, v => { c with status := v }
  | .species, c, v => { c with species := v }

/-- The object columns of the request frame, in frame column order. -/
def catFields : List CatField :=
  [.region, .primary_role, .alignment, .status, .species]

/-- The Encoded Feature Map: the column/value pairs of
`pd.get_dummies(pd.DataFrame([data]), dummy_na=True)`, in frame column
order — numeric columns first, then the dummy block of each object column. -/
def encode (c : CharacterInput) : List (PyStr × ℚ) :=
  numericItems c ++
    catFields.flatMap (fun f => get_dummies_col f.fieldName (f.get c))

/-- Column lookup in the encoded frame (a unique column axis: first —
hence only — match), `none` when the column is absent. -/
def lookupVal (c : PyStr) : List (PyStr × ℚ) → Option ℚ
  | [] => none
  | (k, v) :: rest => if c = k then some v else lookupVal c rest

/-- Model of `df_encoded.reindex(columns=schema, fill_value=0)`: identical axis is a
no-op; a unique column axis is realigned by name with 0 fill; a duplicated
column axis raises pandas' duplicate-labels `ValueError` unless the target
is empty. -/
def reindex (cols : List (PyStr × ℚ)) (schema : List PyStr) :
    Except PyStr (List ℚ) :=
  if cols.map Prod.fst = schema then .ok (cols.map Prod.snd)
  else if (cols.map Prod.fst).Nodup then
    .ok (schema.map fun c => (lookupVal c cols).getD 0)
  else if schema = [] then .ok []
  else .error ("cannot reindex on an axis with duplicate labels".toList)

/-- The opaque trained model: an inference call that may raise. -/
abbrev ModelFn := List ℚ → Except PyStr PyStr

/-- The possible outcomes of one `/predict` request. -/
inductive PredictResult where
  /-- The 503 `HTTPException` ("Model not loaded..."). -/
  | notReady
  /-- The success body carrying `house_affiliation`. -/
  | label (house_affiliation : PyStr)
  /-- The 500 `HTTPException` ("Prediction failed: ..."). -/
  | predictionFailed (detail : PyStr)
  /-- an exception escaping the handler (raised outside the try/except). -/
  | unhandledError (detail : PyStr)
deriving DecidableEq

/-- The `/predict` handler of `app.py`, as a function of the two globals
and the (already pydantic-validated) request record. -/
def predict (model : Option ModelFn) (feature_columns : Option (List PyStr))
    (character : CharacterInput) : PredictResult :=
  match model, feature_columns with
  | some m, some cols =>
    match reindex (encode character) cols with
    | .error e => .unhandledError e
    | .ok df_aligned =>
      match m df_aligned with
      | .ok pred => .label pred
      | .error e => .predictionFailed ("Prediction failed: ".toList ++ e)
  | _, _ => .notReady

/-- The two module-level globals of `app.py`. -/
structure Globals where
  model : Option ModelFn
  feature_columns : Option (List PyStr)

/-- The globals at process start: `model = None`, `feature_columns = None`. -/
def initGlobals : Globals := { model := none, feature_columns := none }

/-- Model of `load_artifacts()`: a no-op when an artifact file is absent; otherwise
`joblib.load` runs first (its failure leaves both globals untouched), and a
failure while reading or parsing `feature_columns.json` leaves `model`
assigned but `feature_columns` untouched. -/
def load_artifacts (artifactsPresent : Bool)
    (loadModel : Except PyStr ModelFn)
    (loadSchema : Except PyStr (List PyStr)) (g : Globals) : Globals :=
  if artifactsPresent = false then g
  else
    match loadModel with
    | .error _ => g
    | .ok m =>
      match loadSchema with
      | .error _ => { g with model := some m }
      | .ok cols => { g with model := some m, feature_columns := some cols }

/-- A sample valid request record. -/
def sampleInput : CharacterInput :=
  { region := "North".toList
    primary_role := "warrior".toList
    alignment := "lawful".toList
    status := "alive".toList
    species := "human".toList
    honour_1to5 := 3
    ruthlessness_1to5 := 2
    intelligence_1to5 := 4
    combat_skill_1to5 := 5
    diplomacy_1to5 := 1
    leadership_1to5 := 2
    trait_strategic := true
    trait_impulsive := false
    trait_charismatic := true
    trait_vengeful := false
    trait_loyal := true
    trait_scheming := false
    feature_set_version := 1 }

/-- The sample record with the literal string "nan" as species. -/
def nanInput : CharacterInput := { sampleInput with species := "nan".toList }

/-- The sample record with a different `feature_set_version`. -/
def fsvInput2 : CharacterInput := { sampleInput with feature_set_version := 2 }

/-- A model stub whose inference call always raises. -/
def failingModel : ModelFn := fun _ => .error "boom".toList

/-- The indicator group of a categorical field: the column names that the
one-hot expansion of that field can ever produce, i.e. those starting with
`"<field>_"`. -/
def groupKey (f : CatField) (c : PyStr) : Bool :=
  (f.fieldName ++ ['_']).isPrefixOf c

/-- An encoded frame with the indicator group of one categorical field
entirely removed ("that field absent from the encoding"). -/
def dropGroup (f : CatField) (cols : List (PyStr × ℚ)) : List (PyStr × ℚ) :=
  cols.filter fun p => ! groupKey f p.1

lemma isPrefixOf_append_self (p t : PyStr) : p.isPrefixOf (p ++ t) = true := by
  induction p with
  | nil => simp [List.isPrefixOf_nil_left]
  | cons a as ih => simp [List.isPrefixOf_cons₂, ih]

lemma isPrefixOf_exists (p l : PyStr) (h : p.isPrefixOf l = true) :
    ∃ t, p ++ t = l := by
  induction p generalizing l with
  | nil => exact ⟨l, rfl⟩
  | cons a as ih =>
    cases l with
    | nil => exact Bool.noConfusion h
    | cons b bs =>
      rw [List.isPrefixOf_cons₂] at h
      simp only [Bool.and_eq_true, beq_iff_eq] at h
      obtain ⟨rfl, hp⟩ := h
      obtain ⟨t, ht⟩ := ih bs hp
      exact ⟨t, by rw [List.cons_append, ht]⟩

lemma isPrefixOf_comparable (p q l : PyStr) (hp : p.isPrefixOf l = true)
    (hq : q.isPrefixOf l = true) :
    p.isPrefixOf q = true ∨ q.isPrefixOf p = true := by
  induction l generalizing p q with
  | nil =>
    cases p with
    | nil => exact Or.inl (List.isPrefixOf_nil_left)
    | cons a as => exact Bool.noConfusion hp
  | cons c cs ih =>
    cases p with
    | nil => exact Or.inl (List.isPrefixOf_nil_left)
    | cons a as =>
      cases q with
      | nil => exact Or.inr (List.isPrefixOf_nil_left)
      | cons b bs =>
        rw [List.isPrefixOf_cons₂] at hp hq
        simp only [Bool.and_eq_true, beq_iff_eq] at hp hq
        rcases ih as bs hp.2 hq.2 with h | h
        · exact Or.inl (by simp [List.isPrefixOf_cons₂, hp.1, hq.1, h])
        · exact Or.inr (by simp [List.isPrefixOf_cons₂, hp.1, hq.1, h])

lemma append_ne_of_isPrefixOf_false (p w k : PyStr)
    (h : p.isPrefixOf k = false) : p ++ w ≠ k := by
  intro e
  have hs := isPrefixOf_append_self p w
  rw [e, h] at hs
  exact Bool.noConfusion hs

lemma lookupVal_append_some (c : PyStr) (xs ys : List (PyStr × ℚ)) (v : ℚ)
    (h : lookupVal c xs = some v) : lookupVal c (xs ++ ys) = some v := by
  induction xs with
  | nil => simp [lookupVal] at h
  | cons p t ih =>
    obtain ⟨k, w⟩ := p
    rw [List.cons_append]
    by_cases hck : c = k
    · simp only [lookupVal, if_pos hck] at h ⊢
      exact h
    · simp only [lookupVal, if_neg hck] at h ⊢
      exact ih h

lemma lookupVal_append_none (c : PyStr) (xs ys : List (PyStr × ℚ))
    (h : lookupVal c xs = none) :
    lookupVal c (xs ++ ys) = lookupVal c ys := by
  induction xs with
  | nil => rfl
  | cons p t ih =>
    obtain ⟨k, w⟩ := p
    rw [List.cons_append]
    by_cases hck : c = k
    · simp [lookupVal, hck] at h
    · simp only [lookupVal, if_neg hck] at h ⊢
      exact ih h

lemma lookupVal_append_congr (c : PyStr) (xs xs' ys ys' : List (PyStr × ℚ))
    (h1 : lookupVal c xs = lookupVal c xs')
    (h2 : lookupVal c ys = lookupVal c ys') :
    lookupVal c (xs ++ ys) = lookupVal c (xs' ++ ys') := by
  cases h : lookupVal c xs with
  | none =>
    rw [lookupVal_append_none _ _ _ h,
      lookupVal_append_none _ _ _ (h1.symm.trans h)]
    exact h2
  | some v =>
    rw [lookupVal_append_some _ _ _ _ h,
      lookupVal_append_some _ _ _ _ (h1.symm.trans h)]

lemma lookupVal_eq_none (c : PyStr) (cols : List (PyStr × ℚ))
    (h : c ∉ cols.map Prod.fst) : lookupVal c cols = none := by
  induction cols with
  | nil => rfl
  | cons p t ih =>
    obtain ⟨k, w⟩ := p
    simp only [List.map_cons, List.mem_cons, not_or] at h
    simp only [lookupVal, if_neg h.1]
    exact ih h.2

lemma lookupVal_keys_none (p : PyStr) (cols : List (PyStr × ℚ))
    (h : ∀ k ∈ cols.map Prod.fst, p.isPrefixOf k = false) (w : PyStr) :
    lookupVal (p ++ w) cols = none := by
  apply lookupVal_eq_none
  intro hmem
  exact append_ne_of_isPrefixOf_false p w _ (h _ hmem) rfl

lemma lookupVal_self_map (cols : List (PyStr × ℚ))
    (h : (cols.map Prod.fst).Nodup) :
    (cols.map Prod.fst).map (fun c => (lookupVal c cols).getD 0) =
      cols.map Prod.snd := by
  induction cols with
  | nil => rfl
  | cons p t ih =>
    obtain ⟨k, v⟩ := p
    simp only [List.map_cons, List.nodup_cons] at h ⊢
    obtain ⟨hk, ht⟩ := h
    have h1 : (lookupVal k ((k, v) :: t)).getD 0 = v := by simp [lookupVal]
    have h2 : (t.map Prod.fst).map (fun c => (lookupVal c ((k, v) :: t)).getD 0) =
        t.map Prod.snd := by
      rw [← ih ht]
      apply List.map_congr_left
      intro c hc
      have hck : c ≠ k := fun e => hk (e ▸ hc)
      simp [lookupVal, hck]
    rw [h1, h2]

lemma reindex_ok_of_nodup (cols : List (PyStr × ℚ)) (schema : List PyStr)
    (h : (cols.map Prod.fst).Nodup) :
    reindex cols schema = .ok (schema.map fun c => (lookupVal c cols).getD 0) := by
  rw [reindex]
  by_cases he : cols.map Prod.fst = schema
  · rw [if_pos he, ← he, lookupVal_self_map cols h]
  · rw [if_neg he, if_pos h]

lemma reindex_length (cols : List (PyStr × ℚ)) (schema : List PyStr)
    (v : List ℚ) (h : reindex cols schema = .ok v) :
    v.length = schema.length := by
  rw [reindex] at h
  split_ifs at h with h1 h2 h3
  · simp only [Except.ok.injEq] at h
    subst h
    rw [← h1]
    simp
  · simp only [Except.ok.injEq] at h
    subst h
    simp
  · simp only [Except.ok.injEq] at h
    subst h
    simp [h3]

lemma lookupVal_filter_true (c : PyStr) (q : PyStr → Bool)
    (cols : List (PyStr × ℚ)) (h : q c = true) :
    lookupVal c (cols.filter fun p => q p.1) = lookupVal c cols := by
  induction cols with
  | nil => rfl
  | cons p t ih =>
    obtain ⟨k, w⟩ := p
    by_cases hck : c = k
    · subst hck
      rw [List.filter_cons]
      simp only [h, if_pos]
      simp [lookupVal]
    · rw [List.filter_cons]
      by_cases hqk : q k = true
      · simp only [hqk, if_pos]
        simp only [lookupVal, if_neg hck]
        exact ih
      · simp only [Bool.not_eq_true] at hqk
        simp only [hqk, Bool.false_eq_true, if_false]
        rw [ih]
        simp only [lookupVal, if_neg hck]

lemma lookupVal_filter_false (c : PyStr) (q : PyStr → Bool)
    (cols : List (PyStr × ℚ)) (h : q c = false) :
    lookupVal c (cols.filter fun p => q p.1) = none := by
  apply lookupVal_eq_none
  intro hmem
  rw [List.mem_map] at hmem
  obtain ⟨p, hp, hpc⟩ := hmem
  rw [List.mem_filter] at hp
  rw [hpc] at hp
  rw [h] at hp
  exact Bool.noConfusion hp.2

lemma filter_keys_nodup (cols : List (PyStr × ℚ)) (q : PyStr × ℚ → Bool)
    (h : (cols.map Prod.fst).Nodup) :
    ((cols.filter q).map Prod.fst).Nodup :=
  List.Nodup.sublist ((List.filter_sublist cols).map Prod.fst) h

lemma fieldKeyShape (p x : PyStr) : p ++ '_' :: x = (p ++ ['_']) ++ x := by
  rw [List.append_assoc]
  rfl

lemma nanKeyShape (p : PyStr) :
    p ++ "_nan".toList = (p ++ ['_']) ++ "nan".toList := by
  rw [List.append_assoc]
  rfl

lemma numericItems_set (f : CatField) (r : CharacterInput) (w : PyStr) :
    numericItems (f.set r w) = numericItems r := by
  cases f <;> rfl

lemma get_set_self (f : CatField) (r : CharacterInput) (w : PyStr) :
    f.get (f.set r w) = w := by
  cases f <;> rfl

lemma get_set_of_ne (f g : CatField) (r : CharacterInput) (w : PyStr)
    (h : g ≠ f) : g.get (f.set r w) = g.get r := by
  cases f <;> cases g <;> first | exact absurd rfl h | rfl

lemma fieldKey_not_of_ne (f g : CatField) (h : f ≠ g) :
    (f.fieldName ++ ['_']).isPrefixOf (g.fieldName ++ ['_']) = false := by
  cases f <;> cases g <;> first | exact absurd rfl h | decide

lemma group_other_false (f g : CatField) (h : f ≠ g) (v : PyStr) :
    (f.fieldName ++ ['_']).isPrefixOf ((g.fieldName ++ ['_']) ++ v) = false := by
  by_contra hb
  rw [Bool.not_eq_false] at hb
  rcases isPrefixOf_comparable _ _ _ hb (isPrefixOf_append_self _ v) with hc | hc
  · rw [fieldKey_not_of_ne f g h] at hc
    exact Bool.noConfusion hc
  · rw [fieldKey_not_of_ne g f h.symm] at hc
    exact Bool.noConfusion hc

lemma group_other_key1 (f g : CatField) (h : f ≠ g) (v : PyStr) :
    (f.fieldName ++ ['_']).isPrefixOf (g.fieldName ++ '_' :: v) = false := by
  have hb := group_other_false f g h v
  rwa [← fieldKeyShape] at hb

lemma group_other_key2 (f g : CatField) (h : f ≠ g) :
    (f.fieldName ++ ['_']).isPrefixOf (g.fieldName ++ "_nan".toList) = false := by
  have hb := group_other_false f g h ("nan".toList)
  rwa [← nanKeyShape] at hb

lemma group_self_key1 (f : CatField) (v : PyStr) :
    (f.fieldName ++ ['_']).isPrefixOf (f.fieldName ++ '_' :: v) = true := by
  have hb := isPrefixOf_append_self (f.fieldName ++ ['_']) v
  rwa [← fieldKeyShape] at hb

lemma group_self_key2 (f : CatField) :
    (f.fieldName ++ ['_']).isPrefixOf (f.fieldName ++ "_nan".toList) = true := by
  have hb := isPrefixOf_append_self (f.fieldName ++ ['_']) ("nan".toList)
  rwa [← nanKeyShape] at hb

lemma lookup_dummy_other (f g : CatField) (hfg : f ≠ g) (v c : PyStr)
    (hc : groupKey f c = true) :
    lookupVal c (get_dummies_col g.fieldName v) = none := by
  have h1 : c ≠ g.fieldName ++ '_' :: v := by
    intro e
    rw [groupKey, e, group_other_key1 f g hfg v] at hc
    exact Bool.noConfusion hc
  have h2 : c ≠ g.fieldName ++ "_nan".toList := by
    intro e
    rw [groupKey, e, group_other_key2 f g hfg] at hc
    exact Bool.noConfusion hc
  simp only [get_dummies_col, lookupVal, if_neg h1, if_neg h2]

lemma lookup_dummy_self (f : CatField) (v c : PyStr)
    (hne : c ≠ f.fieldName ++ '_' :: v) :
    lookupVal c (get_dummies_col f.fieldName v) = none ∨
      lookupVal c (get_dummies_col f.fieldName v) = some 0 := by
  by_cases h2 : c = f.fieldName ++ "_nan".toList
  · right
    simp only [get_dummies_col, lookupVal, if_neg hne, if_pos h2]
  · left
    simp only [get_dummies_col, lookupVal, if_neg hne, if_neg h2]

lemma lookup_dummy_not_group (f : CatField) (v c : PyStr)
    (hc : groupKey f c = false) :
    lookupVal c (get_dummies_col f.fieldName v) = none := by
  have h1 : c ≠ f.fieldName ++ '_' :: v := by
    intro e
    rw [groupKey, e, group_self_key1] at hc
    exact Bool.noConfusion hc
  have h2 : c ≠ f.fieldName ++ "_nan".toList := by
    intro e
    rw [groupKey, e, group_self_key2] at hc
    exact Bool.noConfusion hc
  simp only [get_dummies_col, lookupVal, if_neg h1, if_neg h2]

lemma lookup_numeric_group (f : CatField) (r : CharacterInput) (c : PyStr)
    (hc : groupKey f c = true) :
    lookupVal c (numericItems r) = none := by
  rw [groupKey] at hc
  obtain ⟨t, ht⟩ := isPrefixOf_exists _ _ hc
  rw [← ht]
  apply lookupVal_keys_none
  intro k hk
  simp [numericItems] at hk
  cases f <;>
    (rcases hk with rfl | rfl | rfl | rfl | rfl | rfl | rfl | rfl | rfl | rfl | rfl | rfl | rfl <;> decide)

lemma lookup_encode_group (f : CatField) (r : CharacterInput) (c : PyStr)
    (hc : groupKey f c = true) (hne : c ≠ f.fieldName ++ '_' :: f.get r) :
    (lookupVal c (encode r)).getD 0 = 0 := by
  rw [encode, lookupVal_append_none _ _ _ (lookup_numeric_group f r c hc)]
  simp only [catFields, List.flatMap_cons, List.flatMap_nil, List.append_nil]
  cases f with
  | region =>
    rcases lookup_dummy_self .region _ c hne with h0 | h0
    · rw [lookupVal_append_none _ _ _ h0,
        lookupVal_append_none _ _ _ (lookup_dummy_other .region .primary_role (by decide) _ c hc),
        lookupVal_append_none _ _ _ (lookup_dummy_other .region .alignment (by decide) _ c hc),
        lookupVal_append_none _ _ _ (lookup_dummy_other .region .status (by decide) _ c hc),
        lookup_dummy_other .region .species (by decide) _ c hc]
      rfl
    · rw [lookupVal_append_some _ _ _ _ h0]
      rfl
  | primary_role =>
    rw [lookupVal_append_none _ _ _ (lookup_dummy_other .primary_role .region (by decide) _ c hc)]
    rcases lookup_dummy_self .primary_role _ c hne with h0 | h0
    · rw [lookupVal_append_none _ _ _ h0,
        lookupVal_append_none _ _ _ (lookup_dummy_other .primary_role .alignment (by decide) _ c hc),
        lookupVal_append_none _ _ _ (lookup_dummy_other .primary_role .status (by decide) _ c hc),
        lookup_dummy_other .primary_role .species (by decide) _ c hc]
      rfl
    · rw [lookupVal_append_some _ _ _ _ h0]
      rfl
  | alignment =>
    rw [lookupVal_append_none _ _ _ (lookup_dummy_other .alignment .region (by decide) _ c hc),
      lookupVal_append_none _ _ _ (lookup_dummy_other .alignment .primary_role (by decide) _ c hc)]
    rcases lookup_dummy_self .alignment _ c hne with h0 | h0
    · rw [lookupVal_append_none _ _ _ h0,
        lookupVal_append_none _ _ _ (lookup_dummy_other .alignment .status (by decide) _ c hc),
        lookup_dummy_other .alignment .species (by decide) _ c hc]
      rfl
    · rw [lookupVal_append_some _ _ _ _ h0]
      rfl
  | status =>
    rw [lookupVal_append_none _ _ _ (lookup_dummy_other .status .region (by decide) _ c hc),
      lookupVal_append_none _ _ _ (lookup_dummy_other .status .primary_role (by decide) _ c hc),
      lookupVal_append_none _ _ _ (lookup_dummy_other .status .alignment (by decide) _ c hc)]
    rcases lookup_dummy_self .status _ c hne with h0 | h0
    · rw [lookupVal_append_none _ _ _ h0,
        lookup_dummy_other .status .species (by decide) _ c hc]
      rfl
    · rw [lookupVal_append_some _ _ _ _ h0]
      rfl
  | species =>
    rw [lookupVal_append_none _ _ _ (lookup_dummy_other .species .region (by decide) _ c hc),
      lookupVal_append_none _ _ _ (lookup_dummy_other .species .primary_role (by decide) _ c hc),
      lookupVal_append_none _ _ _ (lookup_dummy_other .species .alignment (by decide) _ c hc),
      lookupVal_append_none _ _ _ (lookup_dummy_other .species .status (by decide) _ c hc)]
    rcases lookup_dummy_self .species _ c hne with h0 | h0
    · rw [h0]
      rfl
    · rw [h0]
      rfl

lemma lookup_encode_set (f : CatField) (r : CharacterInput) (w c : PyStr)
    (hc : groupKey f c = false) :
    lookupVal c (encode (f.set r w)) = lookupVal c (encode r) := by
  rw [encode, encode, numericItems_set]
  apply lookupVal_append_congr _ _ _ _ _ rfl
  simp only [catFields, List.flatMap_cons, List.flatMap_nil, List.append_nil]
  cases f with
  | region =>
    rw [get_set_self,
      get_set_of_ne .region .primary_role r w (by decide),
      get_set_of_ne .region .alignment r w (by decide),
      get_set_of_ne .region .status r w (by decide),
      get_set_of_ne .region .species r w (by decide)]
    apply lookupVal_append_congr _ _ _ _ _ ?_ rfl
    rw [lookup_dummy_not_group .region w c hc, lookup_dummy_not_group .region _ c hc]
  | primary_role =>
    rw [get_set_self,
      get_set_of_ne .primary_role .region r w (by decide),
      get_set_of_ne .primary_role .alignment r w (by decide),
      get_set_of_ne .primary_role .status r w (by decide),
      get_set_of_ne .primary_role .species r w (by decide)]
    apply lookupVal_append_congr _ _ _ _ _ rfl
    apply lookupVal_append_congr _ _ _ _ _ ?_ rfl
    rw [lookup_dummy_not_group .primary_role w c hc,
      lookup_dummy_not_group .primary_role _ c hc]
  | alignment =>
    rw [get_set_self,
      get_set_of_ne .alignment .region r w (by decide),
      get_set_of_ne .alignment .primary_role r w (by decide),
      get_set_of_ne .alignment .status r w (by decide),
      get_set_of_ne .alignment .species r w (by decide)]
    apply lookupVal_append_congr _ _ _ _ _ rfl
    apply lookupVal_append_congr _ _ _ _ _ rfl
    apply lookupVal_append_congr _ _ _ _ _ ?_ rfl
    rw [lookup_dummy_not_group .alignment w c hc,
      lookup_dummy_not_group .alignment _ c hc]
  | status =>
    rw [get_set_self,
      get_set_of_ne .status .region r w (by decide),
      get_set_of_ne .status .primary_role r w (by decide),
      get_set_of_ne .status .alignment r w (by decide),
      get_set_of_ne .status .species r w (by decide)]
    apply lookupVal_append_congr _ _ _ _ _ rfl
    apply lookupVal_append_congr _ _ _ _ _ rfl
    apply lookupVal_append_congr _ _ _ _ _ rfl
    apply lookupVal_append_congr _ _ _ _ _ ?_ rfl
    rw [lookup_dummy_not_group .status w c hc,
      lookup_dummy_not_group .status _ c hc]
  | species =>
    rw [get_set_self,
      get_set_of_ne .species .region r w (by decide),
      get_set_of_ne .species .primary_role r w (by decide),
      get_set_of_ne .species .alignment r w (by decide),
      get_set_of_ne .species .status r w (by decide)]
    apply lookupVal_append_congr _ _ _ _ _ rfl
    apply lookupVal_append_congr _ _ _ _ _ rfl
    apply lookupVal_append_congr _ _ _ _ _ rfl
    apply lookupVal_append_congr _ _ _ _ _ rfl
    rw [lookup_dummy_not_group .species w c hc,
      lookup_dummy_not_group .species _ c hc]

lemma lookup_numeric_fsv (r : CharacterInput) (x : ℚ) (c : PyStr)
    (hc : c ≠ "feature_set_version".toList) :
    lookupVal c (numericItems { r with feature_set_version := x }) =
      lookupVal c (numericItems r) := by
  simp only [numericItems, lookupVal, if_neg hc]

lemma lookup_encode_fsv (r : CharacterInput) (x : ℚ) (c : PyStr)
    (hc : c ≠ "feature_set_version".toList) :
    lookupVal c (encode { r with feature_set_version := x }) =
      lookupVal c (encode r) := by
  rw [encode, encode]
  exact lookupVal_append_congr _ _ _ _ _ (lookup_numeric_fsv r x c hc) rfl

lemma keys_encode_fsv (r : CharacterInput) (x : ℚ) :
    (encode { r with feature_set_version := x }).map Prod.fst =
      (encode r).map Prod.fst := rfl

lemma fsv_mem_keys (c : CharacterInput) :
    "feature_set_version".toList ∈ (encode c).map Prod.fst := by
  simp [encode, numericItems]

lemma reindex_encode_fsv (r : CharacterInput) (x y : ℚ) (schema : List PyStr)
    (h : "feature_set_version".toList ∉ schema) :
    reindex (encode { r with feature_set_version := x }) schema =
      reindex (encode { r with feature_set_version := y }) schema := by
  have hkx : (encode { r with feature_set_version := x }).map Prod.fst ≠ schema := by
    intro e
    apply h
    rw [← e]
    exact fsv_mem_keys _
  have hky : (encode { r with feature_set_version := y }).map Prod.fst ≠ schema := by
    intro e
    apply h
    rw [← e]
    exact fsv_mem_keys _
  rw [reindex, reindex, if_neg hkx, if_neg hky, keys_encode_fsv r x, keys_encode_fsv r y]
  by_cases hn : ((encode r).map Prod.fst).Nodup
  · rw [if_pos hn, if_pos hn]
    congr 1
    apply List.map_congr_left
    intro c hcs
    have hcf : c ≠ "feature_set_version".toList := fun e => h (e ▸ hcs)
    rw [lookup_encode_fsv r x c hcf, lookup_encode_fsv r y c hcf]
  · rw [if_neg hn, if_neg hn]

lemma predict_reindex_congr (m : ModelFn) (cols : List PyStr)
    (r1 r2 : CharacterInput)
    (h : reindex (encode r1) cols = reindex (encode r2) cols) :
    predict (some m) (some cols) r1 = predict (some m) (some cols) r2 := by
  simp only [predict]
  rw [h]

lemma lookup_dropGroup_none (f : CatField) (cols : List (PyStr × ℚ))
    (c : PyStr) (h : groupKey f c = true) :
    lookupVal c (dropGroup f cols) = none :=
  lookupVal_filter_false c (fun s => ! groupKey f s) cols (by simp [h])

lemma lookup_dropGroup_eq (f : CatField) (cols : List (PyStr × ℚ))
    (c : PyStr) (h : groupKey f c = false) :
    lookupVal c (dropGroup f cols) = lookupVal c cols :=
  lookupVal_filter_true c (fun s => ! groupKey f s) cols (by simp [h])

lemma dropGroup_keys_nodup (f : CatField) (cols : List (PyStr × ℚ))
    (h : (cols.map Prod.fst).Nodup) :
    ((dropGroup f cols).map Prod.fst).Nodup :=
  filter_keys_nodup cols _ h

/-- Claim C1 (Aligner correctness): for a feature map with unique keys and
any schema, alignment succeeds, and position `i` of the output holds the
map's value for the `i`-th schema name when that name is a key of the map
and 0 otherwise; keys outside the schema merely never contribute. -/
theorem aligner_correct (cols : List (PyStr × ℚ)) (schema : List PyStr)
    (hdup : (cols.map Prod.fst).Nodup) :
    ∃ v, reindex cols schema = .ok v ∧ v.length = schema.length ∧
      ∀ i (hi : i < schema.length) (hv : i < v.length),
        v.get ⟨i, hv⟩ =
          if schema.get ⟨i, hi⟩ ∈ cols.map Prod.fst
          then (lookupVal (schema.get ⟨i, hi⟩) cols).getD 0
          else 0 := by
  refine ⟨schema.map fun c => (lookupVal c cols).getD 0,
    reindex_ok_of_nodup cols schema hdup, by simp, ?_⟩
  intro i hi hv
  simp only [List.get_eq_getElem, List.getElem_map]
  by_cases hm : schema[i] ∈ cols.map Prod.fst
  · rw [if_pos hm]
  · rw [if_neg hm, lookupVal_eq_none _ _ hm]
    rfl

/-- Witness for C1 at a concrete map and schema. -/
theorem aligner_correct_witness :
    (([("a".toList, (5 : ℚ))].map Prod.fst).Nodup) ∧
    (∃ v, reindex [("a".toList, (5 : ℚ))] ["a".toList, "b".toList] = .ok v ∧
      v.length = (["a".toList, "b".toList] : List PyStr).length ∧
      ∀ i (hi : i < (["a".toList, "b".toList] : List PyStr).length)
        (hv : i < v.length),
        v.get ⟨i, hv⟩ =
          if (["a".toList, "b".toList] : List PyStr).get ⟨i, hi⟩ ∈
              [("a".toList, (5 : ℚ))].map Prod.fst
          then (lookupVal ((["a".toList, "b".toList] : List PyStr).get ⟨i, hi⟩)
              [("a".toList, (5 : ℚ))]).getD 0
          else 0) :=
  ⟨by decide, aligner_correct [("a".toList, (5 : ℚ))] ["a".toList, "b".toList]
    (by decide)⟩

/-- Claim C2 (Length invariant): whenever encoding a request record and
aligning it against a schema yields a vector, that vector's length equals
the schema's length, however many keys the encoded map had. -/
theorem align_encode_length (r : CharacterInput) (schema : List PyStr)
    (v : List ℚ) (h : reindex (encode r) schema = .ok v) :
    v.length = schema.length :=
  reindex_length (encode r) schema v h

/-- Witness for C2 on a concrete record and a singleton schema. -/
theorem align_encode_length_witness :
    reindex (encode sampleInput) ["honour_1to5".toList] = .ok [(3 : ℚ)] ∧
    ([(3 : ℚ)]).length = (["honour_1to5".toList] : List PyStr).length :=
  ⟨by decide, align_encode_length sampleInput ["honour_1to5".toList] [(3 : ℚ)]
    (by decide)⟩

/-- Claim C3 (Not-ready guarantee): when either global is unset, every
request is answered with the 503 not-ready condition, whatever the record
and whatever the other artifact holds; no encoding, alignment or inference
result can surface. -/
theorem not_ready_guarantee (model : Option ModelFn)
    (feature_columns : Option (List PyStr)) (r : CharacterInput)
    (h : model = none ∨ feature_columns = none) :
    predict model feature_columns r = .notReady := by
  rcases h with h | h
  · subst h
    cases feature_columns <;> rfl
  · subst h
    cases model <;> rfl

/-- Witness for C3 with both globals unset. -/
theorem not_ready_guarantee_witness :
    ((none : Option ModelFn) = none ∨
      (none : Option (List PyStr)) = none) ∧
    predict none none sampleInput = .notReady :=
  ⟨Or.inl rfl, not_ready_guarantee none none sampleInput (Or.inl rfl)⟩

/-- Claim C4 (Encoder correctness): the encoded map of any record carries
each numeric rating and `feature_set_version` unchanged under its own
field name, each boolean trait as 1/0 under its own field name, and for
each of the five categorical fields the indicator `"<field>_<value>" = 1`
together with the dedicated `"<field>_nan" = 0` entry. -/
theorem encoder_correct (r : CharacterInput) :
    ("honour_1to5".toList, (r.honour_1to5 : ℚ)) ∈ encode r ∧
    ("ruthlessness_1to5".toList, (r.ruthlessness_1to5 : ℚ)) ∈ encode r ∧
    ("intelligence_1to5".toList, (r.intelligence_1to5 : ℚ)) ∈ encode r ∧
    ("combat_skill_1to5".toList, (r.combat_skill_1to5 : ℚ)) ∈ encode r ∧
    ("diplomacy_1to5".toList, (r.diplomacy_1to5 : ℚ)) ∈ encode r ∧
    ("leadership_1to5".toList, (r.leadership_1to5 : ℚ)) ∈ encode r ∧
    ("feature_set_version".toList, r.feature_set_version) ∈ encode r ∧
    ("trait_strategic".toList, if r.trait_strategic then (1 : ℚ) else 0) ∈ encode r ∧
    ("trait_impulsive".toList, if r.trait_impulsive then (1 : ℚ) else 0) ∈ encode r ∧
    ("trait_charismatic".toList, if r.trait_charismatic then (1 : ℚ) else 0) ∈ encode r ∧
    ("trait_vengeful".toList, if r.trait_vengeful then (1 : ℚ) else 0) ∈ encode r ∧
    ("trait_loyal".toList, if r.trait_loyal then (1 : ℚ) else 0) ∈ encode r ∧
    ("trait_scheming".toList, if r.trait_scheming then (1 : ℚ) else 0) ∈ encode r ∧
    ∀ f : CatField,
      (f.fieldName ++ '_' :: f.get r, (1 : ℚ)) ∈ encode r ∧
      (f.fieldName ++ "_nan".toList, (0 : ℚ)) ∈ encode r := by
  refine ⟨?_, ?_, ?_, ?_, ?_, ?_, ?_, ?_, ?_, ?_, ?_, ?_, ?_, ?_⟩
  case _ => simp [encode, numericItems]
  case _ => simp [encode, numericItems]
  case _ => simp [encode, numericItems]
  case _ => simp [encode, numericItems]
  case _ => simp [encode, numericItems]
  case _ => simp [encode, numericItems]
  case _ => simp [encode, numericItems]
  case _ => simp [encode, numericItems, boolInt]
  case _ => simp [encode, numericItems, boolInt]
  case _ => simp [encode, numericItems, boolInt]
  case _ => simp [encode, numericItems, boolInt]
  case _ => simp [encode, numericItems, boolInt]
  case _ => simp [encode, numericItems, boolInt]
  case _ =>
    intro f
    cases f <;>
      exact ⟨by simp [encode, catFields, get_dummies_col, CatField.fieldName, CatField.get],
        by simp [encode, catFields, get_dummies_col, CatField.fieldName, CatField.get]⟩

/-- Claim C6 (Alignment idempotence): a vector already in canonical schema
order, read back as a map keyed by the schema names, aligns to itself. -/
theorem align_idempotent (schema : List PyStr) (v : List ℚ)
    (h : v.length = schema.length) :
    reindex (schema.zip v) schema = .ok v := by
  have hf : (schema.zip v).map Prod.fst = schema :=
    List.map_fst_zip schema v (le_of_eq h.symm)
  rw [reindex, if_pos hf, List.map_snd_zip schema v (le_of_eq h)]

/-- Witness for C6 on a concrete two-column schema. -/
theorem align_idempotent_witness :
    ([(3 : ℚ), 7]).length = (["a".toList, "b".toList] : List PyStr).length ∧
    reindex ((["a".toList, "b".toList] : List PyStr).zip [(3 : ℚ), 7])
      ["a".toList, "b".toList] = .ok [(3 : ℚ), 7] :=
  ⟨rfl, align_idempotent ["a".toList, "b".toList] [(3 : ℚ), 7] rfl⟩

/-- Claim C7 (Prediction-failure handling): once a request reaches
inference with an aligned vector, a raising model yields exactly the 500
"Prediction failed: ..." condition carrying the diagnostic, and a
succeeding model yields exactly the predicted label. -/
theorem prediction_failure_handling (m : ModelFn) (cols : List PyStr)
    (r : CharacterInput) (v : List ℚ)
    (h : reindex (encode r) cols = .ok v) :
    (∀ e, m v = .error e →
      predict (some m) (some cols) r =
        .predictionFailed ("Prediction failed: ".toList ++ e)) ∧
    (∀ l, m v = .ok l → predict (some m) (some cols) r = .label l) := by
  constructor
  · intro e he
    simp [predict, h, he]
  · intro l hl
    simp [predict, h, hl]

/-- Witness for C7 with a model stub that raises. -/
theorem prediction_failure_handling_witness :
    reindex (encode sampleInput) ["honour_1to5".toList] = .ok [(3 : ℚ)] ∧
    predict (some failingModel) (some ["honour_1to5".toList]) sampleInput =
      .predictionFailed ("Prediction failed: ".toList ++ "boom".toList) :=
  ⟨by decide,
    (prediction_failure_handling failingModel ["honour_1to5".toList]
      sampleInput [(3 : ℚ)] (by decide)).1 "boom".toList rfl⟩

/-- Claim C9 (Partial-load safety): when the model artifact loads but
reading or parsing the schema file raises, `load_artifacts` leaves `model`
assigned and `feature_columns` unset, and every subsequent request is
still answered with the 503 not-ready condition. -/
theorem partial_load_not_ready (m : ModelFn) (e : PyStr) (r : CharacterInput) :
    (load_artifacts true (.ok m) (.error e) initGlobals).model = some m ∧
    (load_artifacts true (.ok m) (.error e) initGlobals).feature_columns = none ∧
    predict (load_artifacts true (.ok m) (.error e) initGlobals).model
      (load_artifacts true (.ok m) (.error e) initGlobals).feature_columns r =
      .notReady :=
  ⟨rfl, rfl, rfl⟩

/-- Counterexample to C5 as stated: a record whose species is the literal
string "nan" has its indicator key `species_nan` absent from the schema
(so the claim's hypothesis holds), yet alignment raises the
duplicate-labels error instead of proceeding without exception. -/
theorem unknown_category_cex :
    (("species".toList ++ '_' :: nanInput.species) ∉
      (["honour_1to5".toList] : List PyStr)) ∧
    reindex (encode nanInput) ["honour_1to5".toList] =
      .error ("cannot reindex on an axis with duplicate labels".toList) := by
  decide

/-- Claim C5 as amended (Unknown-category policy), additionally assuming
the encoded map has no duplicate column names (i.e. no categorical field
holds the literal string "nan"): when a categorical field's indicator key
matches no schema column, alignment succeeds, every schema position of
that field's indicator group is 0, dropping the field's indicator group
from the encoding yields the identical vector, and any other value for
that field (whose encoding is also duplicate-free) can change the vector
only inside that field's indicator group. -/
theorem unknown_category_policy (f : CatField) (r : CharacterInput)
    (schema : List PyStr)
    (hdup : ((encode r).map Prod.fst).Nodup)
    (hmiss : (f.fieldName ++ '_' :: f.get r) ∉ schema) :
    ∃ v, reindex (encode r) schema = .ok v ∧
      (∀ i (hi : i < schema.length) (hv : i < v.length),
        groupKey f (schema.get ⟨i, hi⟩) = true → v.get ⟨i, hv⟩ = 0) ∧
      reindex (dropGroup f (encode r)) schema = .ok v ∧
      (∀ w : PyStr, ((encode (f.set r w)).map Prod.fst).Nodup →
        ∀ u, reindex (encode (f.set r w)) schema = .ok u →
        ∀ i (hi : i < schema.length) (hu : i < u.length) (hv : i < v.length),
          groupKey f (schema.get ⟨i, hi⟩) = false →
          u.get ⟨i, hu⟩ = v.get ⟨i, hv⟩) := by
  refine ⟨schema.map fun c => (lookupVal c (encode r)).getD 0,
    reindex_ok_of_nodup _ _ hdup, ?_, ?_, ?_⟩
  · intro i hi hv hg
    simp only [List.get_eq_getElem, List.getElem_map] at hg ⊢
    exact lookup_encode_group f r _ hg
      (fun e => hmiss (e ▸ List.get_mem schema i hi))
  · rw [reindex_ok_of_nodup _ _ (dropGroup_keys_nodup f _ hdup)]
    congr 1
    apply List.map_congr_left
    intro c hcs
    by_cases hg : groupKey f c = true
    · rw [lookup_dropGroup_none f _ c hg,
        lookup_encode_group f r c hg (fun e => hmiss (e ▸ hcs))]
      rfl
    · rw [Bool.not_eq_true] at hg
      rw [lookup_dropGroup_eq f _ c hg]
  · intro w hw u hu i hi hup hv hg
    rw [reindex_ok_of_nodup _ _ hw] at hu
    simp only [Except.ok.injEq] at hu
    subst hu
    simp only [List.get_eq_getElem, List.getElem_map] at hg ⊢
    rw [lookup_encode_set f r w _ hg]

/-- Witness for the amended C5: species "Elf" against a schema knowing
only "species_Dragon"; the species group column is zeroed. -/
theorem unknown_category_policy_witness :
    (((encode sampleInput).map Prod.fst).Nodup) ∧
    ((CatField.species.fieldName ++ '_' :: CatField.species.get sampleInput) ∉
      (["species_Dragon".toList, "honour_1to5".toList] : List PyStr)) ∧
    (∃ v, reindex (encode sampleInput)
        ["species_Dragon".toList, "honour_1to5".toList] = .ok v ∧
      (∀ i (hi : i < (["species_Dragon".toList, "honour_1to5".toList] : List PyStr).length)
        (hv : i < v.length),
        groupKey .species
          ((["species_Dragon".toList, "honour_1to5".toList] : List PyStr).get ⟨i, hi⟩) = true →
        v.get ⟨i, hv⟩ = 0) ∧
      reindex (dropGroup .species (encode sampleInput))
        ["species_Dragon".toList, "honour_1to5".toList] = .ok v ∧
      (∀ w : PyStr,
        ((encode (CatField.species.set sampleInput w)).map Prod.fst).Nodup →
        ∀ u, reindex (encode (CatField.species.set sampleInput w))
          ["species_Dragon".toList, "honour_1to5".toList] = .ok u →
        ∀ i (hi : i < (["species_Dragon".toList, "honour_1to5".toList] : List PyStr).length)
          (hu : i < u.length) (hv : i < v.length),
          groupKey .species
            ((["species_Dragon".toList, "honour_1to5".toList] : List PyStr).get ⟨i, hi⟩) = false →
          u.get ⟨i, hu⟩ = v.get ⟨i, hv⟩)) :=
  ⟨by decide, by decide,
    unknown_category_policy .species sampleInput
      ["species_Dragon".toList, "honour_1to5".toList] (by decide) (by decide)⟩

/-- Counterexample to C8 as stated: against a schema that contains the
column `feature_set_version`, two records differing only in that field
align to different vectors. -/
theorem fsv_cex :
    reindex (encode sampleInput) ["feature_set_version".toList] ≠
      reindex (encode fsvInput2) ["feature_set_version".toList] := by
  decide

/-- Claim C8 as amended (feature_set_version noninterference), restricted
to schemas without a `feature_set_version` column: two records differing
only in `feature_set_version` align to identical vectors and receive the
identical response from any model. -/
theorem fsv_noninterference (r : CharacterInput) (x y : ℚ)
    (schema : List PyStr) (m : ModelFn)
    (h : "feature_set_version".toList ∉ schema) :
    reindex (encode { r with feature_set_version := x }) schema =
      reindex (encode { r with feature_set_version := y }) schema ∧
    predict (some m) (some schema) { r with feature_set_version := x } =
      predict (some m) (some schema) { r with feature_set_version := y } := by
  have hre := reindex_encode_fsv r x y schema h
  exact ⟨hre, predict_reindex_congr m schema _ _ hre⟩

/-- Witness for the amended C8 on a schema without the version column. -/
theorem fsv_noninterference_witness :
    ("feature_set_version".toList ∉ (["honour_1to5".toList] : List PyStr)) ∧
    (reindex (encode { sampleInput with feature_set_version := 1 })
        ["honour_1to5".toList] =
      reindex (encode { sampleInput with feature_set_version := 2 })
        ["honour_1to5".toList] ∧
    predict (some failingModel) (some ["honour_1to5".toList])
        { sampleInput with feature_set_version := 1 } =
      predict (some failingModel) (some ["honour_1to5".toList])
        { sampleInput with feature_set_version := 2 }) :=
  ⟨by decide,
    fsv_noninterference sampleInput 1 2 ["honour_1to5".toList] failingModel
      (by decide)⟩

lemma species_dummy_sublist (r : CharacterInput) :
    (get_dummies_col ("species".toList) r.species).Sublist (encode r) := by
  rw [encode]
  simp only [catFields, List.flatMap_cons, List.flatMap_nil, List.append_nil]
  exact ((((List.sublist_append_right _ _).trans
    (List.sublist_append_right _ _)).trans
    (List.sublist_append_right _ _)).trans
    (List.sublist_append_right _ _)).trans
    (List.sublist_append_right _ _)

lemma encode_keys_not_nodup (r : CharacterInput)
    (hnan : r.species = "nan".toList) :
    ¬ ((encode r).map Prod.fst).Nodup := by
  intro hnd
  have hb : ((get_dummies_col ("species".toList) r.species).map Prod.fst).Nodup :=
    List.Nodup.sublist ((species_dummy_sublist r).map Prod.fst) hnd
  rw [hnan] at hb
  exact absurd hb (by decide)

/-- Claim C10 (Literal-"nan" input hazard): a record whose species field is
the literal string "nan" makes the one-hot expansion emit two columns both
named `species_nan`; against any nonempty duplicate-free schema the
subsequent reindex then raises outside the prediction-error handler, so
the request yields neither a label nor the "Prediction failed" condition. -/
theorem literal_nan_hazard (r : CharacterInput) (m : ModelFn)
    (cols : List PyStr) (hnan : r.species = "nan".toList)
    (hnd : cols.Nodup) (hne : cols ≠ []) :
    ¬ ((encode r).map Prod.fst).Nodup ∧
    predict (some m) (some cols) r =
      .unhandledError ("cannot reindex on an axis with duplicate labels".toList) := by
  have hdup := encode_keys_not_nodup r hnan
  refine ⟨hdup, ?_⟩
  have hk : (encode r).map Prod.fst ≠ cols := by
    intro e
    rw [← e] at hnd
    exact hdup hnd
  have hre : reindex (encode r) cols =
      .error ("cannot reindex on an axis with duplicate labels".toList) := by
    rw [reindex, if_neg hk, if_neg hdup, if_neg hne]
  simp [predict, hre]

/-- Witness for C10 on the concrete "nan"-species record. -/
theorem literal_nan_hazard_witness :
    nanInput.species = "nan".toList ∧
    (["honour_1to5".toList] : List PyStr).Nodup ∧
    (["honour_1to5".toList] : List PyStr) ≠ [] ∧
    (¬ ((encode nanInput).map Prod.fst).Nodup ∧
      predict (some failingModel) (some ["honour_1to5".toList]) nanInput =
        .unhandledError ("cannot reindex on an axis with duplicate labels".toList)) :=
  ⟨rfl, by decide, by decide,
    literal_nan_hazard nanInput failingModel ["honour_1to5".toList] rfl
      (by decide) (by decide)⟩
